import Mathlib

/-!
Shallow embedding of `src/production.py` (Autonomous-Data-Engineering-Squad).

The repository is a single Python module.  The pure text-processing
functions (`extract_code_from_chat`, `extract_text_from_chat`,
`local_quality_check`, the filename slug of `save_conversation`) are
translated directly.  The orchestrator `run_engineering_squad` performs
external completion calls through `user_proxy.initiate_chat`; those calls
are abstracted as an oracle `env : Nat -> Except String (List Message)`
giving, for the n-th call of the run, either the chat history produced by
that call or a fatal error (`TransportError` / `MalformedReplyError`,
which `requests.raise_for_status` / the reply-shape access raise and
which propagate uncaught).  File writes are modelled as an ordered list
of `(filename, content)` pairs produced by the run, in the order the
Python code performs them; `print` calls and the filesystem directory
are not modelled.  Strings are Lean `String`s; the Python functions in
scope only rely on ASCII behaviour of `.lower()`, `.upper()`, `.strip()`
and `\s`, which is what the character-level helpers below implement.
-/

/-- Python's `\s` (and `str.strip`) whitespace test, restricted to the
ASCII whitespace characters `space, \t, \n, \r, \x0b, \x0c`. -/
def isPySpace (c : Char) : Bool :=
  c = ' ' || c = '\t' || c = '\n' || c = '\r' || c = '\x0b' || c = '\x0c'

/-- Python `str.strip()` on a list of characters: drop leading and
trailing whitespace. -/
def pyStripList (s : List Char) : List Char :=
  ((s.dropWhile isPySpace).reverse.dropWhile isPySpace).reverse

/-- Python `str.strip()`. -/
def pyStrip (s : String) : String :=
  String.mk (pyStripList s.toList)

/-- Python `str.lower()` (ASCII). -/
def pyLower (s : String) : String :=
  String.mk (s.toList.map Char.toLower)

/-- Python `str.upper()` (ASCII). -/
def pyUpper (s : String) : String :=
  String.mk (s.toList.map Char.toUpper)

/-- Python `sep.join(parts)`. -/
def pyJoin (sep : String) : List String → String
  | [] => ""
  | [x] => x
  | x :: y :: ys => x ++ sep ++ pyJoin sep (y :: ys)

/-- Python substring test `needle in haystack` on character lists:
true iff `n` occurs contiguously in the second list. -/
def hasSubstr (n : List Char) : List Char → Bool
  | [] => n.isEmpty
  | c :: cs => n.isPrefixOf (c :: cs) || hasSubstr n cs

/-- Python `needle in haystack` on strings. -/
def pyIn (needle haystack : String) : Bool :=
  hasSubstr needle.toList haystack.toList

/-- Python `c * n` for a single character (used for the `"=" * 80` and
`"-" * 80` rules in the output files). -/
def repChar (n : Nat) (c : Char) : String :=
  String.mk (List.replicate n c)

/-- One entry of a chat history: a Python dict with optional keys
`role`, `name`, `content` (`msg.get(k, default)` is modelled by
`Option.getD`; `msg.get("content") or ""` also maps `None` to `""`). -/
structure Message where
  role : Option String := none
  name : Option String := none
  content : Option String := none
  deriving Repr, DecidableEq

/-- The message-filtering pass shared by `extract_code_from_chat` and
`extract_text_from_chat`: keep the stripped content of every message
whose `name` equals `agent_name` and whose stripped content is
non-empty, in conversation order. -/
def partsOf (history : List Message) (agent_name : String) : List String :=
  history.filterMap (fun m =>
    let content := pyStrip (m.content.getD "")
    if m.name.getD "" = agent_name ∧ content ≠ "" then some content else none)

/-- The literal three-backtick fence delimiter. -/
def fence : List Char := ['`', '`', '`']

/-- Split a character list at the first occurrence of the fence
delimiter: `splitAtFence s = some (pre, post)` iff `s = pre ++ fence
++ post` and `pre` contains no earlier fence occurrence; `none` if no
fence occurs. -/
def splitAtFence : List Char → Option (List Char × List Char)
  | [] => none
  | c :: cs =>
    if fence.isPrefixOf (c :: cs) then some ([], cs.drop 2)
    else
      match splitAtFence cs with
      | some (pre, post) => some (c :: pre, post)
      | none => none

/-- The part of the regex `(?:python|pyspark)?\s*\n?(.*?)` ++ fence that
follows the optional language tag.  The greedy `\s*` consumes the
maximal whitespace run (after which `\n?` necessarily matches the empty
string, the next character not being whitespace), and the lazy capture
then extends to the first closing fence.  Backtracking `\s*` cannot turn
an overall failure into a success because whitespace contains no
backtick, so max-munch is faithful. -/
def matchBody (s : List Char) : Option (List Char × List Char) :=
  splitAtFence (s.dropWhile isPySpace)

/-- One attempt of the Python regex
`r"```(?:python|pyspark)?\s*\n?(.*?)```"` (with `re.DOTALL`) anchored at
the start of `s`: returns the captured group and the remainder after
the closing fence.  The alternation tries `python`, then `pyspark`,
then the empty tag, as the regex engine does; if the tag matches but no
closing fence follows, the other alternatives fail as well (the tag
letters contain no backtick), so no cross-alternative backtracking is
needed. -/
def tryMatchAt (s : List Char) : Option (List Char × List Char) :=
  if fence.isPrefixOf s then
    let s1 := s.drop 3
    if ("python".toList).isPrefixOf s1 then
      matchBody (s1.drop 6)
    else if ("pyspark".toList).isPrefixOf s1 then
      matchBody (s1.drop 7)
    else matchBody s1
  else none

/-- `re.findall` driver: scan left to right; at each position try a
match; on success emit the capture and resume after the match, otherwise
advance one character.  `fuel` bounds the recursion; every step consumes
at least one character (a successful match consumes at least the two
fences), so `fuel = s.length` is always sufficient. -/
def findBlocksAux : Nat → List Char → List (List Char)
  | 0, _ => []
  | _ + 1, [] => []
  | fuel + 1, c :: cs =>
    match tryMatchAt (c :: cs) with
    | some (cap, rest) => cap :: findBlocksAux fuel rest
    | none => findBlocksAux fuel cs

/-- `re.findall(r"```(?:python|pyspark)?\s*\n?(.*?)```", s, re.DOTALL)`. -/
def findBlocks (s : List Char) : List (List Char) :=
  findBlocksAux s.length s

/-- `extract_code_from_chat(chat_result, agent_name)` from
`src/production.py`: stitch the agent's non-empty stripped messages with
a single newline, extract fenced code blocks; if any block was found
return the stripped block bodies joined by a blank line, otherwise
return the stitched text; empty string when no message matches. -/
def extract_code_from_chat (history : List Message) (agent_name : String) : String :=
  let parts := partsOf history agent_name
  if parts = [] then ""
  else
    let stitched := pyJoin "\n" parts
    let blocks := findBlocks stitched.toList
    if blocks ≠ [] then pyJoin "\n\n" (blocks.map (fun b => pyStrip (String.mk b)))
    else stitched

/-- `extract_text_from_chat(chat_result, agent_name)` from
`src/production.py`: the agent's non-empty stripped messages joined by a
single newline, no fence parsing. -/
def extract_text_from_chat (history : List Message) (agent_name : String) : String :=
  pyJoin "\n" (partsOf history agent_name)

/-- Failure message of rule 1 (verbatim from `src/production.py`). -/
def rule1Msg : String :=
  "[RULE 1] FAIL — 'partitionBy' not found. Add .write.partitionBy('event_date')"

/-- Failure message of rule 2 (verbatim from `src/production.py`). -/
def rule2Msg : String :=
  "[RULE 2] FAIL — 'to_date' not found. Derive event_date using to_date(col('event_timestamp'))"

/-- Failure message of rule 3 (verbatim from `src/production.py`). -/
def rule3Msg : String :=
  "[RULE 3] FAIL — No explicit schema. Define schema using StructType/StructField"

/-- `local_quality_check(code)` from `src/production.py`: the three
substring rules appended in declaration order; passed iff no failure. -/
def local_quality_check (code : String) : Bool × List String :=
  let failures : List String :=
    (if !pyIn "partitionBy" code then [rule1Msg] else []) ++
    (if !pyIn "to_date" code then [rule2Msg] else []) ++
    (if !pyIn "StructType" code && !pyIn "StructField" code then [rule3Msg] else [])
  (failures.length == 0, failures)

/-- Collapse each maximal whitespace run to a single underscore, the
effect of `re.sub(r"\s+", "_", s)`; the boolean records whether the
previous character was part of a whitespace run. -/
def collapseWsAux : Bool → List Char → List Char
  | _, [] => []
  | prevWs, c :: cs =>
    if isPySpace c then
      if prevWs then collapseWsAux true cs
      else '_' :: collapseWsAux true cs
    else c :: collapseWsAux false cs

/-- `re.sub(r"\s+", "_", s)`. -/
def collapseWs (s : List Char) : List Char :=
  collapseWsAux false s

/-- The filename slug computed by `save_conversation`: lower-case,
delete characters outside `[a-z0-9\s]`, strip, collapse whitespace runs
to `_`, truncate to 40 characters. -/
def slugOf (task_message : String) : String :=
  let slug := pyLower task_message
  let slug := String.mk (slug.toList.filter
    (fun c => ('a' ≤ c ∧ c ≤ 'z') ∨ ('0' ≤ c ∧ c ≤ '9') ∨ isPySpace c = true))
  let slug := String.mk (collapseWs (pyStripList slug.toList))
  String.mk (slug.toList.take 40)

/-- Filename written by `save_conversation`: `f"{slug}{suffix}.txt"`. -/
def save_conversation_filename (task_message suffix : String) : String :=
  slugOf task_message ++ suffix ++ ".txt"

/-- One message as rendered into the transcript file by
`save_conversation`'s loop body. -/
def renderMessage (m : Message) : String :=
  let role := pyUpper (m.role.getD "unknown")
  let name := m.name.getD ""
  let label := if name = "" then "[" ++ role ++ "]"
    else "[" ++ role ++ " — " ++ pyUpper name ++ "]"
  label ++ "\n" ++ pyStrip (m.content.getD "") ++ "\n\n" ++ repChar 80 '-' ++ "\n\n"

/-- Full content of the transcript file written by `save_conversation`. -/
def save_conversation_content (chat_history : List Message) (task_message : String) : String :=
  "TASK: " ++ task_message ++ "\n" ++ repChar 80 '=' ++ "\n\n" ++
    String.join (chat_history.map renderMessage)

/-- Content of `infra_config.txt` as written by `run_engineering_squad`. -/
def infra_config_content (task cloud_output : String) : String :=
  "# Infrastructure Config — Auto-generated by Cloud_Architect\n" ++
    "# Task: " ++ task ++ "\n" ++ repChar 80 '=' ++ "\n\n" ++ cloud_output

/-- Content of `approved_script.py` as written by `run_engineering_squad`. -/
def approved_script_content (approved : Bool) (current_script : String) : String :=
  "# Auto-generated by Data_Architect\n" ++
    "# Review Status: " ++ (if approved then "APPROVED" else "BEST EFFORT") ++ "\n\n" ++
    current_script

/-- Outcome of the validate/revise `for` loop of `run_engineering_squad`.
`revisions` counts the rewrite requests sent to the drafting agent and
`validations` the executions of `local_quality_check`; both are
observations instrumenting the loop, not extra program state. -/
structure LoopResult where
  approved : Bool
  script : String
  hist : List Message
  callIdx : Nat
  revisions : Nat
  validations : Nat
  deriving Repr, DecidableEq

/-- The `for cycle in range(1, max_review_cycles + 1)` loop of
`run_engineering_squad`, over the explicit list of cycle numbers
(`List.range' 1 max_review_cycles = [1, ..., max_review_cycles]`).
Each iteration runs `local_quality_check` on the current script; on
pass it breaks with `approved = True`; on failure it sends a revision
request (one oracle call) only when `cycle < max_review_cycles`,
otherwise it falls through to the next iteration (for the actual cycle
list this only happens at the last element). -/
def review_loop (env : Nat → Except String (List Message)) (max_review_cycles : Nat) :
    List Nat → Nat → String → List Message → Except String LoopResult
  | [], callIdx, script, hist => .ok ⟨false, script, hist, callIdx, 0, 0⟩
  | cycle :: rest, callIdx, script, hist =>
    if (local_quality_check script).1 then .ok ⟨true, script, hist, callIdx, 0, 1⟩
    else if cycle < max_review_cycles then
      match env callIdx with
      | .error e => .error e
      | .ok chat =>
        match review_loop env max_review_cycles rest (callIdx + 1)
            (extract_code_from_chat chat "Data_Architect") (hist ++ chat) with
        | .error e => .error e
        | .ok r => .ok ⟨r.approved, r.script, r.hist, r.callIdx, r.revisions + 1, r.validations + 1⟩
    else
      match review_loop env max_review_cycles rest callIdx script hist with
      | .error e => .error e
      | .ok r => .ok ⟨r.approved, r.script, r.hist, r.callIdx, r.revisions, r.validations + 1⟩

/-- Observable result of one completed `run_engineering_squad` run. -/
structure RunResult where
  approved : Bool
  final_script : String
  infra_text : String
  all_history : List Message
  revisions : Nat
  validations : Nat
  deriving Repr, DecidableEq

/-- `run_engineering_squad(task, max_review_cycles)` from
`src/production.py`.  Oracle call 0 is the drafting stage
(`initiate_chat(architect, message=task)`), calls `1, 2, ...` are the
revision requests issued inside the loop, and the next index after the
loop is the deployment stage (`initiate_chat(cloud_architect, ...)`).
The first component lists the file writes `(filename, content)` in the
order the Python code performs them: transcript, `infra_config.txt`,
`approved_script.py` — all after every completion call, so a fatal
error (second component `.error`) leaves the write list empty. -/
def run_engineering_squad (env : Nat → Except String (List Message)) (task : String)
    (max_review_cycles : Nat) : List (String × String) × Except String RunResult :=
  match env 0 with
  | .error e => ([], .error e)
  | .ok arch_chat =>
    let current_script := extract_code_from_chat arch_chat "Data_Architect"
    match review_loop env max_review_cycles (List.range' 1 max_review_cycles) 1
        current_script arch_chat with
    | .error e => ([], .error e)
    | .ok lr =>
      match env lr.callIdx with
      | .error e => ([], .error e)
      | .ok cloud_chat =>
        let cloud_output := extract_text_from_chat cloud_chat "Cloud_Architect"
        let all_history := lr.hist ++ cloud_chat
        ([ (save_conversation_filename task "_full_squad",
              save_conversation_content all_history task),
           ("infra_config.txt", infra_config_content task cloud_output),
           ("approved_script.py", approved_script_content lr.approved lr.script) ],
         .ok ⟨lr.approved, lr.script, cloud_output, all_history,
              lr.revisions, lr.validations⟩)

/-- An oracle whose every call succeeds with an empty chat history (the
completion service replies, but no message is attributable to the
agent, so every extraction yields the empty string). -/
def envEmpty : Nat → Except String (List Message) := fun _ => .ok []

/-- An oracle whose every call fails with a transport error. -/
def envFail : Nat → Except String (List Message) := fun _ => .error "TransportError"

/-- Concrete message with an unrecognized `sql` fence tag (C10). -/
def sqlMsg : Message :=
  ⟨none, some "Data_Architect", some "```sql\nSELECT 1\n```"⟩

/-- Concrete message with prose around a Python fence (C6 scenario). -/
def proseMsg : Message :=
  ⟨none, some "Data_Architect", some "prose ```python\nSELECT 1\n``` trailing"⟩

/-- Concrete fenceless message (C7 scenario). -/
def fooMsg : Message := ⟨none, some "Data_Architect", some "foo"⟩

/-- Concrete fenceless message (C7 scenario). -/
def barMsg : Message := ⟨none, some "Data_Architect", some "bar"⟩

/-- Concrete message whose fence tag `python3` extends the recognized
tag `python` (C10 counterexample). -/
def py3Msg : Message :=
  ⟨none, some "Data_Architect", some "```python3\nSELECT 1\n```"⟩

/-! ## Supporting lemmas -/

/-- `hasSubstr` decides contiguous-sublist membership. -/
lemma hasSubstr_iff (n h : List Char) : hasSubstr n h = true ↔ n <:+: h := by
  induction h with
  | nil =>
    simp [hasSubstr, List.isEmpty_iff]
  | cons c cs ih =>
    simp [hasSubstr, ih, List.infix_cons_iff, List.isPrefixOf_iff_prefix]

/-- `pyIn` decides substring containment, Python's `needle in haystack`. -/
lemma pyIn_iff (needle haystack : String) :
    pyIn needle haystack = true ↔ needle.toList <:+: haystack.toList := by
  exact hasSubstr_iff needle.toList haystack.toList

/-- `pyIn` as the decision procedure of substring containment. -/
lemma pyIn_eq_decide (needle haystack : String) :
    pyIn needle haystack = decide (needle.toList <:+: haystack.toList) := by
  by_cases hc : needle.toList <:+: haystack.toList
  · rw [decide_eq_true hc]
    exact (pyIn_iff needle haystack).mpr hc
  · rw [decide_eq_false hc, Bool.eq_false_iff]
    exact fun ht => hc ((pyIn_iff needle haystack).mp ht)

/-! ## C2 -/

/-- C2: `local_quality_check` passes exactly when the text contains
`partitionBy`, contains `to_date`, and contains `StructType` or
`StructField`; the three rules are independent, and the failures list
holds exactly the messages of the failing rules in rule-declaration
order — so a text with none of the markers yields exactly the three
messages in order. -/
theorem claim_C2_quality_rules (code : String) :
    ((local_quality_check code).1 = true ↔
      ("partitionBy".toList <:+: code.toList ∧ "to_date".toList <:+: code.toList ∧
        ("StructType".toList <:+: code.toList ∨ "StructField".toList <:+: code.toList))) ∧
    (local_quality_check code).2 =
      (if "partitionBy".toList <:+: code.toList then [] else [rule1Msg]) ++
      (if "to_date".toList <:+: code.toList then [] else [rule2Msg]) ++
      (if "StructType".toList <:+: code.toList ∨ "StructField".toList <:+: code.toList
        then [] else [rule3Msg]) := by
  by_cases c1 : "partitionBy".toList <:+: code.toList <;>
    by_cases c2 : "to_date".toList <:+: code.toList <;>
      by_cases c3 : "StructType".toList <:+: code.toList <;>
        by_cases c4 : "StructField".toList <:+: code.toList <;>
          simp_all [local_quality_check, pyIn_eq_decide]

/-! ## C4 -/

/-- C4 counterexample: the slug of the spec's example task is not the
38-character string the spec states — the actual slug is exactly 40
characters long, so the final `gb` survives the truncation. -/
theorem claim_C4_counterexample :
    slugOf "Write a concise PySpark script for 500GB!!" ≠
      "write_a_concise_pyspark_script_for_500" := by
  decide

/-- C4 amended: the slug of the task
`"Write a concise PySpark script for 500GB!!"` (lower-case, strip
non-alphanumeric/whitespace, collapse whitespace to `_`, truncate to
40 characters) equals `"write_a_concise_pyspark_script_for_500gb"`,
which is exactly 40 characters. -/
theorem claim_C4_slug :
    slugOf "Write a concise PySpark script for 500GB!!" =
      "write_a_concise_pyspark_script_for_500gb" := by
  decide

/-! ## Loop lemmas -/

/-- Empty fuel or empty input: no blocks. -/
lemma findBlocksAux_nil (f : Nat) : findBlocksAux f [] = [] := by
  cases f <;> rfl

/-- The review loop issues at most one revision per cycle number that is
strictly below the budget. -/
lemma review_loop_revisions_le (env : Nat → Except String (List Message)) (maxc : Nat)
    (cycles : List Nat) :
    ∀ callIdx script hist r,
      review_loop env maxc cycles callIdx script hist = .ok r →
      r.revisions ≤ cycles.countP (fun c => decide (c < maxc)) := by
  induction cycles with
  | nil =>
    intro callIdx script hist r h
    simp only [review_loop, Except.ok.injEq] at h
    subst h
    simp
  | cons cycle rest ih =>
    intro callIdx script hist r h
    simp only [review_loop] at h
    by_cases hq : (local_quality_check script).1 = true
    · rw [if_pos hq] at h
      simp only [Except.ok.injEq] at h
      subst h
      simp
    · rw [if_neg hq] at h
      by_cases hc : cycle < maxc
      · rw [if_pos hc] at h
        cases he : env callIdx with
        | error e => rw [he] at h; simp at h
        | ok chat =>
          rw [he] at h
          dsimp only at h
          cases hr : review_loop env maxc rest (callIdx + 1)
              (extract_code_from_chat chat "Data_Architect") (hist ++ chat) with
          | error e => rw [hr] at h; simp at h
          | ok r' =>
            rw [hr] at h
            simp only [Except.ok.injEq] at h
            subst h
            have := ih (callIdx + 1) (extract_code_from_chat chat "Data_Architect")
              (hist ++ chat) r' hr
            simp [List.countP_cons, hc]
            omega
      · rw [if_neg hc] at h
        cases hr : review_loop env maxc rest callIdx script hist with
        | error e => rw [hr] at h; simp at h
        | ok r' =>
          rw [hr] at h
          simp only [Except.ok.injEq] at h
          subst h
          have := ih callIdx script hist r' hr
          simp [List.countP_cons, hc]
          omega

/-- Among the cycle numbers `1, ..., n`, exactly `n - 1` are strictly
below `n`. -/
lemma countP_range'_lt (n : Nat) :
    (List.range' 1 n).countP (fun c => decide (c < n)) = n - 1 := by
  cases n with
  | zero => simp
  | succ k =>
    rw [List.range'_concat, List.countP_append]
    have h1 : (List.range' 1 k).countP (fun c => decide (c < k + 1)) = k := by
      rw [List.countP_eq_length.mpr]
      · exact List.length_range' ..
      · intro a ha
        have := List.mem_range'_1.mp ha
        simp only [decide_eq_true_eq]
        omega
    have h2 : ((fun c => decide (c < k + 1)) (1 + 1 * k)) = false := by
      simp only [decide_eq_false_iff_not]
      omega
    simp [h1, List.countP_cons, h2]
    omega

/-- A non-empty cycle list runs the quality check at least once before
the loop resolves. -/
lemma review_loop_validations_pos (env : Nat → Except String (List Message)) (maxc : Nat)
    (cycles : List Nat) (h0 : cycles ≠ []) :
    ∀ callIdx script hist r,
      review_loop env maxc cycles callIdx script hist = .ok r →
      1 ≤ r.validations := by
  cases cycles with
  | nil => exact absurd rfl h0
  | cons cycle rest =>
    intro callIdx script hist r h
    simp only [review_loop] at h
    by_cases hq : (local_quality_check script).1 = true
    · rw [if_pos hq] at h
      simp only [Except.ok.injEq] at h
      subst h
      simp
    · rw [if_neg hq] at h
      by_cases hc : cycle < maxc
      · rw [if_pos hc] at h
        cases he : env callIdx with
        | error e => rw [he] at h; simp at h
        | ok chat =>
          rw [he] at h
          dsimp only at h
          cases hr : review_loop env maxc rest (callIdx + 1)
              (extract_code_from_chat chat "Data_Architect") (hist ++ chat) with
          | error e => rw [hr] at h; simp at h
          | ok r' =>
            rw [hr] at h
            simp only [Except.ok.injEq] at h
            subst h
            simp
      · rw [if_neg hc] at h
        cases hr : review_loop env maxc rest callIdx script hist with
        | error e => rw [hr] at h; simp at h
        | ok r' =>
          rw [hr] at h
          simp only [Except.ok.injEq] at h
          subst h
          simp

/-- Destructuring of a completed run: the oracle calls it made, the loop
outcome, and the exact result and write list. -/
lemma run_ok_elim {env : Nat → Except String (List Message)} {task : String} {maxc : Nat}
    {writes : List (String × String)} {r : RunResult}
    (h : run_engineering_squad env task maxc = (writes, .ok r)) :
    ∃ arch_chat lr cloud_chat,
      env 0 = .ok arch_chat ∧
      review_loop env maxc (List.range' 1 maxc) 1
        (extract_code_from_chat arch_chat "Data_Architect") arch_chat = .ok lr ∧
      env lr.callIdx = .ok cloud_chat ∧
      r = ⟨lr.approved, lr.script, extract_text_from_chat cloud_chat "Cloud_Architect",
           lr.hist ++ cloud_chat, lr.revisions, lr.validations⟩ ∧
      writes =
        [ (save_conversation_filename task "_full_squad",
            save_conversation_content (lr.hist ++ cloud_chat) task),
          ("infra_config.txt",
            infra_config_content task (extract_text_from_chat cloud_chat "Cloud_Architect")),
          ("approved_script.py", approved_script_content lr.approved lr.script) ] := by
  unfold run_engineering_squad at h
  cases h0 : env 0 with
  | error e => rw [h0] at h; simp at h
  | ok arch_chat =>
    rw [h0] at h
    dsimp only at h
    cases hl : review_loop env maxc (List.range' 1 maxc) 1
        (extract_code_from_chat arch_chat "Data_Architect") arch_chat with
    | error e => rw [hl] at h; simp at h
    | ok lr =>
      rw [hl] at h
      dsimp only at h
      cases hc : env lr.callIdx with
      | error e => rw [hc] at h; simp at h
      | ok cloud_chat =>
        rw [hc] at h
        dsimp only at h
        simp only [Prod.mk.injEq, Except.ok.injEq] at h
        exact ⟨arch_chat, lr, cloud_chat, rfl, hl, hc, h.2.symm, h.1.symm⟩

/-! ## C1 -/

/-- C1: for every `max_review_cycles ≥ 0`, a completed run performs at
most `max_review_cycles` REVISING transitions (revision requests sent to
the drafting agent); the validate/revise loop is a total structurally
recursive function of the finite cycle list, so it always halts. -/
theorem claim_C1_revision_budget (env : Nat → Except String (List Message))
    (task : String) (maxc : Nat) (writes : List (String × String)) (r : RunResult)
    (h : run_engineering_squad env task maxc = (writes, .ok r)) :
    r.revisions ≤ maxc := by
  obtain ⟨arch_chat, lr, cloud_chat, h0, hl, hc, hr, hw⟩ := run_ok_elim h
  have h1 := review_loop_revisions_le env maxc (List.range' 1 maxc) 1 _ _ lr hl
  have h2 : (List.range' 1 maxc).countP (fun c => decide (c < maxc)) ≤ maxc := by
    calc (List.range' 1 maxc).countP (fun c => decide (c < maxc))
        ≤ (List.range' 1 maxc).length := List.countP_le_length _
      _ = maxc := List.length_range' ..
  subst hr
  exact le_trans h1 h2

/-- C1 witness: at `max_review_cycles = 0` with an oracle that always
returns an empty chat history, the run completes with zero revisions. -/
theorem claim_C1_revision_budget_witness :
    run_engineering_squad envEmpty "t" 0 =
      ((run_engineering_squad envEmpty "t" 0).1,
        Except.ok (⟨false, "", "", [], 0, 0⟩ : RunResult)) ∧
    (⟨false, "", "", [], 0, 0⟩ : RunResult).revisions ≤ 0 :=
  ⟨rfl, claim_C1_revision_budget envEmpty "t" 0
    (run_engineering_squad envEmpty "t" 0).1 ⟨false, "", "", [], 0, 0⟩ rfl⟩

/-! ## C9 -/

/-- C9: for every `max_review_cycles ≥ 1`, a completed run sends at most
`max_review_cycles - 1` revision requests to the drafting agent: a
revision is issued only when the failing cycle index is strictly below
`max_review_cycles`, so a validation failure in the final budgeted cycle
is never reported back to the agent (with the default budget of 4, at
most 3 revision requests occur). -/
theorem claim_C9_last_cycle_no_revision (env : Nat → Except String (List Message))
    (task : String) (maxc : Nat) (writes : List (String × String)) (r : RunResult)
    (hm : 1 ≤ maxc)
    (h : run_engineering_squad env task maxc = (writes, .ok r)) :
    r.revisions ≤ maxc - 1 := by
  obtain ⟨arch_chat, lr, cloud_chat, h0, hl, hc, hr, hw⟩ := run_ok_elim h
  have h1 := review_loop_revisions_le env maxc (List.range' 1 maxc) 1 _ _ lr hl
  rw [countP_range'_lt maxc] at h1
  subst hr
  exact h1

/-- C9 witness: at `max_review_cycles = 4` with an oracle that always
returns an empty chat history (every draft fails validation), the run
completes with exactly 3 revision requests, within the bound `4 - 1`. -/
theorem claim_C9_last_cycle_no_revision_witness :
    (1 ≤ 4 ∧
      run_engineering_squad envEmpty "t" 4 =
        ((run_engineering_squad envEmpty "t" 4).1,
          Except.ok (⟨false, "", "", [], 3, 4⟩ : RunResult))) ∧
    (⟨false, "", "", [], 3, 4⟩ : RunResult).revisions ≤ 4 - 1 :=
  ⟨⟨by decide, rfl⟩,
    claim_C9_last_cycle_no_revision envEmpty "t" 4
      (run_engineering_squad envEmpty "t" 4).1 ⟨false, "", "", [], 3, 4⟩
      (by decide) rfl⟩

/-! ## C8 -/

/-- C8: if any completion call fails fatally at any stage of a run, the
run writes no output file at all — no transcript, no `infra_config.txt`,
no `approved_script.py`: every file write in the source occurs after the
last completion call. -/
theorem claim_C8_no_writes_on_fatal_error (env : Nat → Except String (List Message))
    (task : String) (maxc : Nat) (writes : List (String × String)) (e : String)
    (h : run_engineering_squad env task maxc = (writes, .error e)) :
    writes = [] := by
  unfold run_engineering_squad at h
  cases h0 : env 0 with
  | error e0 =>
    rw [h0] at h
    simp only [Prod.mk.injEq] at h
    exact h.1.symm
  | ok arch_chat =>
    rw [h0] at h
    dsimp only at h
    cases hl : review_loop env maxc (List.range' 1 maxc) 1
        (extract_code_from_chat arch_chat "Data_Architect") arch_chat with
    | error e1 =>
      rw [hl] at h
      simp only [Prod.mk.injEq] at h
      exact h.1.symm
    | ok lr =>
      rw [hl] at h
      dsimp only at h
      cases hc : env lr.callIdx with
      | error e2 =>
        rw [hc] at h
        simp only [Prod.mk.injEq] at h
        exact h.1.symm
      | ok cloud_chat =>
        rw [hc] at h
        simp at h

/-- C8 witness: an oracle that fails on the first call produces an
errored run with an empty write list. -/
theorem claim_C8_no_writes_on_fatal_error_witness :
    run_engineering_squad envFail "t" 4 =
      ((run_engineering_squad envFail "t" 4).1, Except.error "TransportError") ∧
    (run_engineering_squad envFail "t" 4).1 = [] :=
  ⟨rfl, claim_C8_no_writes_on_fatal_error envFail "t" 4
    (run_engineering_squad envFail "t" 4).1 "TransportError" rfl⟩

/-! ## C5 -/

/-- C5 counterexample: with `max_review_cycles = 0` the loop body never
executes — `range(1, 1)` is empty — so the run completes with zero
executions of the Quality Gate, contradicting the claim that VALIDATING
is entered at least once for every `max_review_cycles ≥ 0`. -/
theorem claim_C5_counterexample :
    run_engineering_squad envEmpty "t" 0 =
      ((run_engineering_squad envEmpty "t" 0).1,
        Except.ok (⟨false, "", "", [], 0, 0⟩ : RunResult)) ∧
    (⟨false, "", "", [], 0, 0⟩ : RunResult).validations = 0 :=
  ⟨rfl, rfl⟩

/-- C5 amended: for every `max_review_cycles ≥ 1` a completed run
executes the Quality Gate at least once (on the initial draft); with
`max_review_cycles = 0` the validate/revise loop never runs at all — no
validation is executed — and the run ends unapproved (BEST EFFORT)
after zero revision rounds with the final script equal to the initial
draft extracted from the drafting stage. -/
theorem claim_C5_validating_runs :
    (∀ (env : Nat → Except String (List Message)) (task : String) (maxc : Nat)
        (writes : List (String × String)) (r : RunResult), 1 ≤ maxc →
        run_engineering_squad env task maxc = (writes, .ok r) → 1 ≤ r.validations) ∧
    (∀ (env : Nat → Except String (List Message)) (task : String)
        (writes : List (String × String)) (r : RunResult) (arch_chat : List Message),
        env 0 = .ok arch_chat →
        run_engineering_squad env task 0 = (writes, .ok r) →
        r.approved = false ∧ r.revisions = 0 ∧ r.validations = 0 ∧
          r.final_script = extract_code_from_chat arch_chat "Data_Architect") := by
  constructor
  · intro env task maxc writes r hm h
    obtain ⟨arch_chat, lr, cloud_chat, h0, hl, hc, hr, hw⟩ := run_ok_elim h
    have hne : List.range' 1 maxc ≠ [] := by
      intro hcon
      have := congrArg List.length hcon
      simp only [List.length_range', List.length_nil] at this
      omega
    have h1 := review_loop_validations_pos env maxc (List.range' 1 maxc) hne 1 _ _ lr hl
    subst hr
    exact h1
  · intro env task writes r arch_chat ha h
    obtain ⟨arch', lr, cloud_chat, h0, hl, hc, hr, hw⟩ := run_ok_elim h
    have harch : arch' = arch_chat := by
      have := h0.symm.trans ha
      injection this
    subst harch
    rw [show List.range' 1 0 = [] from rfl] at hl
    simp only [review_loop, Except.ok.injEq] at hl
    subst hl
    subst hr
    exact ⟨rfl, rfl, rfl, rfl⟩

/-- C5 witness: with budget 1 and an all-empty oracle the run performs
exactly one validation, and the theorem's bound applies. -/
theorem claim_C5_validating_runs_witness :
    (1 ≤ 1 ∧
      run_engineering_squad envEmpty "t" 1 =
        ((run_engineering_squad envEmpty "t" 1).1,
          Except.ok (⟨false, "", "", [], 0, 1⟩ : RunResult))) ∧
    1 ≤ (⟨false, "", "", [], 0, 1⟩ : RunResult).validations :=
  ⟨⟨by decide, rfl⟩,
    (claim_C5_validating_runs).1 envEmpty "t" 1
      (run_engineering_squad envEmpty "t" 1).1 ⟨false, "", "", [], 0, 1⟩ (by decide) rfl⟩

/-! ## C3 -/

/-- C3 counterexample: with an oracle whose chats never contain content
attributable to the drafting agent, every extraction yields the empty
string; after exhausting the budget the run is unapproved and its final
script — the body written to `approved_script.py` — is the empty
string, contradicting "the script artifact body is never the empty
string". -/
theorem claim_C3_counterexample :
    run_engineering_squad envEmpty "t" 4 =
      ((run_engineering_squad envEmpty "t" 4).1,
        Except.ok (⟨false, "", "", [], 3, 4⟩ : RunResult)) ∧
    (⟨false, "", "", [], 3, 4⟩ : RunResult).approved = false ∧
    (⟨false, "", "", [], 3, 4⟩ : RunResult).final_script = "" :=
  ⟨rfl, rfl, rfl⟩

/-- C3 amended: if `approved` is false at the end of a completed run,
the run still writes the best-effort script artifact
`approved_script.py` — header recording BEST EFFORT status, body the
final script verbatim — but the body may be the empty string (e.g. when
every extraction yielded no content). -/
theorem claim_C3_best_effort_script_written (env : Nat → Except String (List Message))
    (task : String) (maxc : Nat) (writes : List (String × String)) (r : RunResult)
    (h : run_engineering_squad env task maxc = (writes, .ok r))
    (hap : r.approved = false) :
    ("approved_script.py", approved_script_content false r.final_script) ∈ writes := by
  obtain ⟨arch_chat, lr, cloud_chat, h0, hl, hc, hr, hw⟩ := run_ok_elim h
  subst hr
  subst hw
  dsimp only at hap ⊢
  rw [← hap]
  simp

/-- C3 witness: the all-empty oracle's run is unapproved and still
writes `approved_script.py` with an empty body. -/
theorem claim_C3_best_effort_script_written_witness :
    ("approved_script.py", approved_script_content false "") ∈
      (run_engineering_squad envEmpty "t" 4).1 :=
  claim_C3_best_effort_script_written envEmpty "t" 4
    (run_engineering_squad envEmpty "t" 4).1 ⟨false, "", "", [], 3, 4⟩ rfl rfl

/-! ## Fence-scanning and stripping lemmas -/

lemma dropWhile_eq_self_of_head_false {p : Char → Bool} (c : Char) (cs : List Char)
    (h : p c = false) : (c :: cs).dropWhile p = c :: cs := by
  rw [List.dropWhile_cons, h]
  simp

lemma splitAtFence_append (xs ys : List Char) (h : '`' ∉ xs) :
    splitAtFence (xs ++ fence ++ ys) = some (xs, ys) := by
  induction xs with
  | nil =>
    simp only [List.nil_append]
    show splitAtFence ('`' :: '`' :: '`' :: ys) = some ([], ys)
    rw [splitAtFence]
    simp [fence, List.isPrefixOf]
  | cons x xs' ih =>
    have hx : x ≠ '`' := fun hc => h (hc ▸ List.mem_cons_self x xs')
    have h' : '`' ∉ xs' := fun hc => h (List.mem_cons_of_mem x hc)
    simp only [List.cons_append]
    rw [splitAtFence]
    have hnp : fence.isPrefixOf (x :: (xs' ++ fence ++ ys)) = false := by
      simp [fence, List.isPrefixOf]
      intro hq
      exact absurd hq.symm hx
    rw [hnp]
    simp only [Bool.false_eq_true, if_false]
    rw [ih h']

lemma findBlocksAux_cons_succ (f : Nat) (c : Char) (cs : List Char) :
    findBlocksAux (f + 1) (c :: cs) =
      match tryMatchAt (c :: cs) with
      | some (cap, rest) => cap :: findBlocksAux f rest
      | none => findBlocksAux f cs := rfl

lemma pyStripList_fenced (mid : List Char) :
    pyStripList (('`' :: mid) ++ ['`']) = ('`' :: mid) ++ ['`'] := by
  have hb : isPySpace '`' = false := by decide
  unfold pyStripList
  rw [List.cons_append, dropWhile_eq_self_of_head_false _ _ hb, ← List.cons_append]
  rw [List.reverse_append]
  simp only [List.reverse_cons, List.reverse_nil, List.nil_append, List.singleton_append]
  rw [dropWhile_eq_self_of_head_false _ _ hb]
  simp

lemma dropWhile_eq_self_of_forall {p : Char → Bool} (l : List Char)
    (h : ∀ c ∈ l, p c = false) : l.dropWhile p = l := by
  cases l with
  | nil => rfl
  | cons c cs => exact dropWhile_eq_self_of_head_false c cs (h c (List.mem_cons_self c cs))

lemma prefix_pyStripList (t r : List Char) (ht : t ≠ [])
    (h : ∀ c ∈ t, isPySpace c = false) : t <+: pyStripList (t ++ r) := by
  obtain ⟨c, ts, rfl⟩ : ∃ c ts, t = c :: ts := by
    cases t with
    | nil => exact absurd rfl ht
    | cons c ts => exact ⟨c, ts, rfl⟩
  unfold pyStripList
  rw [List.cons_append, dropWhile_eq_self_of_head_false _ _ (h c (List.mem_cons_self c ts)),
    ← List.cons_append, List.reverse_append, List.dropWhile_append]
  by_cases hcase : (r.reverse.dropWhile isPySpace).isEmpty
  · rw [if_pos hcase]
    rw [dropWhile_eq_self_of_forall _ (fun x hx => h x (List.mem_reverse.mp hx))]
    rw [List.reverse_reverse]
  · rw [if_neg hcase]
    rw [List.reverse_append, List.reverse_reverse]
    exact List.prefix_append _ _

lemma partsOf_cons_of_match (m : Message) (rest : List Message) (agent_name : String)
    (hname : m.name.getD "" = agent_name) (hcontent : pyStrip (m.content.getD "") ≠ "") :
    partsOf (m :: rest) agent_name =
      pyStrip (m.content.getD "") :: partsOf rest agent_name := by
  simp only [partsOf, List.filterMap_cons]
  rw [if_pos ⟨hname, hcontent⟩]

/-- C10 counterexample: the fence tag `python3` is a tag other than the
two recognized tags, yet the regex consumes its `python` prefix, so the
extracted text is `3\nSELECT 1` — the tag word `python3` is neither
captured as part of the block body nor the first word of the result. -/
theorem claim_C10_counterexample :
    extract_code_from_chat [py3Msg] "Data_Architect" = "3\nSELECT 1" ∧
    ("3\nSELECT 1" : String) ≠ "python3\nSELECT 1" := by
  constructor <;> decide

/-- C10 amended: a fenced block whose opening fence declares a tag that
does not begin with either recognized tag `python` or `pyspark` does
not have the tag stripped: for any non-empty tag word (no whitespace,
no backtick) such that neither `python` nor `pyspark` is a prefix of
the text following the opening fence, and any backtick-free block body,
`extract_code_from_chat` returns the stripped capture with the tag word
still at its front — the tag is part of the extracted block body.  (A
tag that merely extends a recognized tag, such as `python3`, has that
recognized prefix consumed instead — see the counterexample.) -/
theorem claim_C10_tag_not_stripped (tag body : List Char) (agent_name : String)
    (htne : tag ≠ [])
    (htws : ∀ c ∈ tag, isPySpace c = false)
    (htbt : '`' ∉ tag)
    (hbbt : '`' ∉ body)
    (hpy : ("python".toList).isPrefixOf (tag ++ '\n' :: (body ++ fence)) = false)
    (hps : ("pyspark".toList).isPrefixOf (tag ++ '\n' :: (body ++ fence)) = false) :
    extract_code_from_chat
        [⟨none, some agent_name,
          some (String.mk (fence ++ ((tag ++ '\n' :: body) ++ fence)))⟩] agent_name =
      pyStrip (String.mk (tag ++ '\n' :: body)) ∧
    tag <+: (pyStrip (String.mk (tag ++ '\n' :: body))).toList := by
  obtain ⟨c, ts, hct⟩ : ∃ c ts, tag = c :: ts := by
    cases tag with
    | nil => exact absurd rfl htne
    | cons c ts => exact ⟨c, ts, rfl⟩
  have hLform : fence ++ ((tag ++ '\n' :: body) ++ fence) =
      ('`' :: ('`' :: '`' :: ((tag ++ '\n' :: body) ++ ['`', '`']))) ++ ['`'] := by
    simp [fence]
  have hstrip : pyStripList (fence ++ ((tag ++ '\n' :: body) ++ fence)) =
      fence ++ ((tag ++ '\n' :: body) ++ fence) := by
    rw [hLform, pyStripList_fenced]
  have hne : pyStrip (String.mk (fence ++ ((tag ++ '\n' :: body) ++ fence))) ≠ "" := by
    rw [show pyStrip (String.mk (fence ++ ((tag ++ '\n' :: body) ++ fence))) =
      String.mk (pyStripList (fence ++ ((tag ++ '\n' :: body) ++ fence))) from rfl, hstrip]
    intro hcon
    have := congrArg String.data hcon
    simp [fence] at this
  have hparts : partsOf
      [⟨none, some agent_name,
        some (String.mk (fence ++ ((tag ++ '\n' :: body) ++ fence)))⟩] agent_name =
      [String.mk (fence ++ ((tag ++ '\n' :: body) ++ fence))] := by
    rw [partsOf_cons_of_match ⟨none, some agent_name,
      some (String.mk (fence ++ ((tag ++ '\n' :: body) ++ fence)))⟩ [] agent_name rfl hne]
    rw [show pyStrip ((some (String.mk (fence ++ ((tag ++ '\n' :: body) ++ fence)))).getD "") =
      String.mk (pyStripList (fence ++ ((tag ++ '\n' :: body) ++ fence))) from rfl, hstrip]
    rfl
  have hMno : '`' ∉ tag ++ '\n' :: body := by
    intro hmem
    rcases List.mem_append.mp hmem with hmem | hmem
    · exact htbt hmem
    · rcases List.mem_cons.mp hmem with hmem | hmem
      · exact absurd hmem.symm (by decide)
      · exact hbbt hmem
  have hcmem : c ∈ tag := by
    rw [hct]
    exact List.mem_cons_self c ts
  have hassoc : (tag ++ '\n' :: body) ++ fence = tag ++ '\n' :: (body ++ fence) := by
    simp
  have hTry : tryMatchAt (fence ++ ((tag ++ '\n' :: body) ++ fence)) =
      some (tag ++ '\n' :: body, []) := by
    unfold tryMatchAt
    rw [if_pos ( List.isPrefixOf_iff_prefix.mpr (List.prefix_append _ _))]
    have hdrop : (fence ++ ((tag ++ '\n' :: body) ++ fence)).drop 3 =
        (tag ++ '\n' :: body) ++ fence := List.drop_left fence _
    rw [hdrop, hassoc]
    dsimp only
    rw [if_neg (by rw [hpy]; exact Bool.false_ne_true),
      if_neg (by rw [hps]; exact Bool.false_ne_true)]
    unfold matchBody
    rw [hct, List.cons_append,
      dropWhile_eq_self_of_head_false _ _ (htws c hcmem),
      ← List.cons_append, ← hct, ← hassoc,
      (List.append_nil ((tag ++ '\n' :: body) ++ fence)).symm]
    exact splitAtFence_append _ _ hMno
  have hFind : findBlocks (fence ++ ((tag ++ '\n' :: body) ++ fence)) =
      [tag ++ '\n' :: body] := by
    have hcons : fence ++ ((tag ++ '\n' :: body) ++ fence) =
        '`' :: ('`' :: '`' :: ((tag ++ '\n' :: body) ++ fence)) := rfl
    rw [findBlocks, hcons, List.length_cons, findBlocksAux_cons_succ, ← hcons, hTry]
    dsimp only
    rw [findBlocksAux_nil]
  constructor
  · simp only [extract_code_from_chat, hparts]
    rw [if_neg (List.cons_ne_nil _ _)]
    rw [show pyJoin "\n" [String.mk (fence ++ ((tag ++ '\n' :: body) ++ fence))] =
      String.mk (fence ++ ((tag ++ '\n' :: body) ++ fence)) from rfl]
    rw [show (String.mk (fence ++ ((tag ++ '\n' :: body) ++ fence))).toList =
      fence ++ ((tag ++ '\n' :: body) ++ fence) from rfl]
    rw [hFind]
    rw [if_pos (List.cons_ne_nil _ _)]
    rfl
  · show tag <+: pyStripList (tag ++ '\n' :: body)
    exact prefix_pyStripList tag ('\n' :: body) htne htws


/-- C10 witness: the `sql` tag of the claim's example is captured as
part of the block body: extraction yields `sql\nSELECT 1`. -/
theorem claim_C10_tag_not_stripped_witness :
    ("sql".toList ≠ [] ∧ '`' ∉ "sql".toList ∧
      ("```sql\nSELECT 1\n```" : String) =
        String.mk (fence ++ (("sql".toList ++ '\n' :: "SELECT 1\n".toList) ++ fence))) ∧
    extract_code_from_chat [sqlMsg] "Data_Architect" = "sql\nSELECT 1" := by
  refine ⟨⟨by decide, by decide, by decide⟩, ?_⟩
  have h := claim_C10_tag_not_stripped "sql".toList "SELECT 1\n".toList "Data_Architect"
    (by decide) (by decide) (by decide) (by decide) (by decide) (by decide)
  have hmsg : String.mk (fence ++ (("sql".toList ++ '\n' :: "SELECT 1\n".toList) ++ fence)) =
      "```sql\nSELECT 1\n```" := by decide
  rw [hmsg] at h
  exact h.1.trans (by decide)

/-- C6: whenever the stitched text of the agent's messages contains at
least one well-formed fenced block, `extract_code_from_chat` returns
exactly the stripped fence bodies joined by a blank line, discarding
all prose outside the fences. -/
theorem claim_C6_fenced_extraction (history : List Message) (agent_name : String)
    (h : findBlocks (pyJoin "\n" (partsOf history agent_name)).toList ≠ []) :
    extract_code_from_chat history agent_name =
      pyJoin "\n\n" ((findBlocks (pyJoin "\n" (partsOf history agent_name)).toList).map
        (fun b => pyStrip (String.mk b))) := by
  have hp : partsOf history agent_name ≠ [] := by
    intro he
    rw [he] at h
    exact h rfl
  simp only [extract_code_from_chat]
  rw [if_neg hp, if_pos h]


/-- C6 witness: the message `"prose ```python\nSELECT 1\n``` trailing"`
contains a fenced block and extraction yields exactly `SELECT 1`. -/
theorem claim_C6_fenced_extraction_witness :
    findBlocks (pyJoin "\n" (partsOf [proseMsg] "Data_Architect")).toList ≠ [] ∧
    extract_code_from_chat [proseMsg] "Data_Architect" = "SELECT 1" :=
  ⟨by decide,
    (claim_C6_fenced_extraction [proseMsg] "Data_Architect" (by decide)).trans (by decide)⟩



/-- C7 counterexample: two fenceless messages `foo`, `bar` of the agent
are stitched with a single newline, not the blank-line separator the
claim states: the result is `foo\nbar`, not `foo\n\nbar`. -/
theorem claim_C7_counterexample :
    extract_code_from_chat [fooMsg, barMsg] "Data_Architect" = "foo\nbar" ∧
    ("foo\nbar" : String) ≠ "foo" ++ "\n\n" ++ "bar" := by
  constructor <;> decide

/-- C7 amended: for a history with at least two messages authored by
the agent (non-empty stripped content) whose stitched concatenation
contains no fenced block, `extract_code_from_chat` returns the stripped
contents joined in conversation order by a single newline (the
`"\n".join` of the source), not by a blank line. -/
theorem claim_C7_newline_stitching (history : List Message) (agent_name : String)
    (h2 : 2 ≤ (partsOf history agent_name).length)
    (h : findBlocks (pyJoin "\n" (partsOf history agent_name)).toList = []) :
    extract_code_from_chat history agent_name =
      pyJoin "\n" (partsOf history agent_name) := by
  have hp : partsOf history agent_name ≠ [] := by
    intro he
    rw [he] at h2
    simp at h2
  simp only [extract_code_from_chat]
  rw [if_neg hp, if_neg (fun hcon => hcon h)]

/-- C7 witness: the two-message `foo`/`bar` history satisfies the
amended statement with result `foo\nbar`. -/
theorem claim_C7_newline_stitching_witness :
    (2 ≤ (partsOf [fooMsg, barMsg] "Data_Architect").length ∧
      findBlocks (pyJoin "\n" (partsOf [fooMsg, barMsg] "Data_Architect")).toList = []) ∧
    extract_code_from_chat [fooMsg, barMsg] "Data_Architect" = "foo\nbar" :=
  ⟨⟨by decide, by decide⟩,
    (claim_C7_newline_stitching [fooMsg, barMsg] "Data_Architect" (by decide)
      (by decide)).trans (by decide)⟩

